import Mathlib

/-!
Verification of `sshtunnel_manager.py` (sctfic/SshTunnel).

The Python module supervises SSH tunnel processes.  We shallowly embed the
functions the claims are about:

* JSON-ish scalar values (`JVal`) and Python-dict-like association lists
  (`dlookup` / `dinsert`), which model the insertion-ordered `dict`s the
  script manipulates;
* `validate_config` (source lines 69-85);
* the command construction of `start_tunnel` (lines 108-127) and its
  already-running guard (lines 94-102);
* `add_tunnel` (lines 168-204) and `remove_tunnel` (lines 206-227);
* `is_host_reachable` (lines 266-278), abstracted over the outcome of the
  spawned `ping` process;
* the SSH-endpoint probe of `check_status` in both its fleet branch
  (lines 297-324) and its single-group branch (lines 326-353), abstracted
  over the network probes `is_port_open` / `is_host_reachable` as oracles;
* `status_service` (lines 412-424), abstracted over process liveness.

Side-effecting operations are modelled by explicit state passing: the pid
marker file content is an `Option Nat`, liveness (`os.kill(pid, 0)`) is an
oracle `Nat → Bool`, and network probes are oracle functions returning the
measured latency (`Option Nat`, `none` = probe failed).
-/

/-- A JSON scalar as it appears inside a tunnel-group config document:
either a string or an integer.  `toStr` mirrors Python f-string
interpolation (`str()` of the value). -/
inductive JVal where
  | str : String → JVal
  | num : Int → JVal
deriving DecidableEq, Repr

def JVal.toStr : JVal → String
  | .str s => s
  | .num n => toString n

/-- First-match lookup in an insertion-ordered association list, the model
of a Python `dict` (whose keys are unique, making first-match exact). -/
def dlookup {α : Type} (m : List (String × α)) (k : String) : Option α :=
  match m with
  | [] => none
  | (k', v) :: rest => if k' = k then some v else dlookup rest k

/-- `m[k] = v` on a Python dict: replace the value at an existing key in
place, otherwise append the new binding at the end (insertion order). -/
def dinsert {α : Type} (m : List (String × α)) (k : String) (v : α) :
    List (String × α) :=
  if (dlookup m k).isSome then
    m.map (fun e => if e.1 = k then (k, v) else e)
  else
    m ++ [(k, v)]

/-- A tunnel spec: the Python dict such as
`{"name": ..., "listen_port": ..., ...}`. -/
def Tunnel : Type := List (String × JVal)

instance : DecidableEq Tunnel := by unfold Tunnel; infer_instance

/-- The `tunnels` member of a config: kind token (`"-L"`, `"-R"`, `"-D"`)
to port-keyed bucket of specs. -/
def Tunnels : Type := List (String × List (String × Tunnel))

instance : DecidableEq Tunnels := by unfold Tunnels; infer_instance

/-- A tunnel-group config document.  `Option` fields model key
presence/absence in the JSON object; `keepalive_interval` stands for
`config["options"]["keepalive_interval"]` (absent when either level is
missing) and `bandwidth` for the `{"up": u, "down": d}` object. -/
structure Config where
  user : Option JVal
  ip : Option JVal
  ssh_port : Option JVal
  ssh_key : Option JVal
  keepalive_interval : Option JVal
  bandwidth : Option (JVal × JVal)
  tunnels : Option Tunnels
deriving DecidableEq

/-- Structured form of the `ValueError` messages `validate_config` raises:
`missingTop f` is `"Champ obligatoire manquant : {f}"`, `missingName` is
the every-tunnel-needs-a-name message, and `missingKindFields k fs` is the
per-kind message that lists the kind's required fields `fs`. -/
inductive VErr where
  | missingTop : String → VErr
  | missingName : VErr
  | missingKindFields : String → List String → VErr
deriving DecidableEq

/-- Which field names appear in the text of a `validate_config` error. -/
def VErr.names : VErr → String → Bool
  | .missingTop g, f => g == f
  | .missingName, f => f == "name"
  | .missingKindFields _ fs, f => fs.contains f

/-- The required-field lists hard-coded in `validate_config` for each
tunnel kind (source lines 79-84). -/
def kindFields (kind : String) : List String :=
  if kind = "-L" then ["listen_port", "endpoint_host", "endpoint_port"]
  else if kind = "-R" then
    ["listen_host", "listen_port", "endpoint_host", "endpoint_port"]
  else if kind = "-D" then ["listen_port"]
  else []

/-- Per-spec check of `validate_config` (lines 77-84): `name` first, then
the `if/elif` chain on the kind token with its `all(...)` membership test. -/
def validate_tunnel (kind : String) (t : Tunnel) : Except VErr Unit :=
  if (dlookup t "name").isNone then .error .missingName
  else if kind = "-L" ∧ ¬ (kindFields "-L").all (fun k => (dlookup t k).isSome) then
    .error (.missingKindFields "-L" (kindFields "-L"))
  else if kind = "-R" ∧ ¬ (kindFields "-R").all (fun k => (dlookup t k).isSome) then
    .error (.missingKindFields "-R" (kindFields "-R"))
  else if kind = "-D" ∧ (dlookup t "listen_port").isNone then
    .error (.missingKindFields "-D" (kindFields "-D"))
  else .ok ()

/-- Iterate one kind bucket, first error wins (the Python loop raises at
the first offending spec). -/
def validate_bucket (kind : String) : List (String × Tunnel) → Except VErr Unit
  | [] => .ok ()
  | (_, t) :: rest =>
    match validate_tunnel kind t with
    | .error e => .error e
    | .ok _ => validate_bucket kind rest

def validate_buckets : Tunnels → Except VErr Unit
  | [] => .ok ()
  | (kind, b) :: rest =>
    match validate_bucket kind b with
    | .error e => .error e
    | .ok _ => validate_buckets rest

/-- The ordered top-level required-field scan of `validate_config`
(lines 70-73): the first absent field among
`user, ip, ssh_port, ssh_key, tunnels`. -/
def topMissing (c : Config) : Option String :=
  if c.user.isNone then some "user"
  else if c.ip.isNone then some "ip"
  else if c.ssh_port.isNone then some "ssh_port"
  else if c.ssh_key.isNone then some "ssh_key"
  else if c.tunnels.isNone then some "tunnels"
  else none

/-- `validate_config` (source lines 69-85). -/
def validate_config (c : Config) : Except VErr Unit :=
  match topMissing c with
  | some f => .error (.missingTop f)
  | none => validate_buckets (c.tunnels.getD [])

/-! ## Command construction (`start_tunnel`, lines 108-127)

`start_tunnel` only builds the command after `validate_config` succeeded,
so the required fields are present; `jstr` reads an (always-present there)
field, with an inert default so the model stays total. -/

def jstr (o : Option JVal) : String := (o.getD (JVal.str "")).toStr

def tstr (t : Tunnel) (k : String) : String := jstr (dlookup t k)

/-- The base `autossh` invocation (line 109-110): `-M 0` (unlimited
retries, no monitoring port), `-N`, identity file, `user@ip`, `-p port`. -/
def base_cmd (c : Config) : List String :=
  ["autossh", "-M", "0", "-N", "-i", jstr c.ssh_key,
   jstr c.user ++ "@" ++ jstr c.ip, "-p", jstr c.ssh_port]

/-- Lines 113-114: the `ServerAliveInterval` option when
`options.keepalive_interval` is present. -/
def keepalive_args (c : Config) : List String :=
  match c.keepalive_interval with
  | some v => ["-o", "ServerAliveInterval=" ++ v.toStr]
  | none => []

/-- Lines 118-123: the single forward argument appended for one spec.
Each forward is ONE list element containing a space, exactly as the
f-strings build it. -/
def forward_args (kind : String) (t : Tunnel) : List String :=
  if kind = "-L" then
    ["-L " ++ tstr t "listen_port" ++ ":" ++ tstr t "endpoint_host" ++ ":"
      ++ tstr t "endpoint_port"]
  else if kind = "-R" then
    ["-R " ++ tstr t "listen_host" ++ ":" ++ tstr t "listen_port" ++ ":"
      ++ tstr t "endpoint_host" ++ ":" ++ tstr t "endpoint_port"]
  else if kind = "-D" then
    ["-D " ++ tstr t "listen_port"]
  else []

/-- Line 127: the `trickle` wrapper prepended when `bandwidth` is set. -/
def bandwidth_prefix (c : Config) : List String :=
  match c.bandwidth with
  | some (u, d) => ["trickle", "-u", u.toStr, "-d", d.toStr]
  | none => []

/-- The full child command of `start_tunnel` (lines 109-127): the
imperative `cmd += ...` accumulation over the nested tunnel loops, started
from the base command plus keepalive option, with the bandwidth wrapper
prepended last (line 127). -/
def start_cmd (c : Config) : List String :=
  bandwidth_prefix c ++
    (c.tunnels.getD []).foldl
      (fun acc kb => kb.2.foldl (fun a pt => a ++ forward_args kb.1 pt.2) acc)
      (base_cmd c ++ keepalive_args c)

/-! ## The already-running guard of `start_tunnel` (lines 94-102, 104-136)

State passed explicitly: `marker` is the content of `PID_DIR/name.pid`
(`none` when the file is absent), `alive pid` is whether `os.kill(pid, 0)`
succeeds, `cfg` is the result of loading the config file (`none` when the
file is missing or unparsable, in which case the `open`/`json.load` raises
and the marker is left untouched), `newPid` the pid `subprocess.Popen`
would return. -/

inductive StartOutcome where
  | alreadyRunning
  | spawned : Nat → StartOutcome
  | failed
deriving DecidableEq

/-- The body of `start_tunnel` after the guard: load, validate, spawn,
record the pid (lines 104-136).  Returns the marker content afterwards and
what happened. -/
def start_go (cfg : Option Config) (newPid : Nat) (marker : Option Nat) :
    Option Nat × StartOutcome :=
  match cfg with
  | none => (marker, .failed)
  | some c =>
    match validate_config c with
    | .error _ => (marker, .failed)
    | .ok _ => (some newPid, .spawned newPid)

/-- `start_tunnel` (lines 87-136): if a marker exists and its pid is alive,
log and return (line 100) without touching anything; a stale marker is only
logged (line 102) and the run continues — it is overwritten at line 134
when the new pid is recorded. -/
def start_tunnel (alive : Nat → Bool) (marker : Option Nat)
    (cfg : Option Config) (newPid : Nat) : Option Nat × StartOutcome :=
  match marker with
  | some pid =>
    if alive pid then (some pid, .alreadyRunning)
    else start_go cfg newPid (some pid)
  | none => start_go cfg newPid none

/-! ## `add_tunnel` (lines 168-204) and `remove_tunnel` (lines 206-227) -/

/-- The two `ValueError` shapes `add_tunnel` raises: the per-kind usage
message on a wrong parameter count, and `"Type de tunnel invalide"`. -/
inductive AddErr where
  | arity : String → AddErr
  | unknownKind : AddErr
deriving DecidableEq

/-- Lines 183-196: construct the new spec from the positional params
(strings, as they come from the CLI), checking the arity per kind.  On
success also returns `params[0]`, the key the spec is stored under. -/
def mk_tunnel (tunnel_name kind : String) (params : List String) :
    Except AddErr (String × Tunnel) :=
  if kind = "-L" then
    match params with
    | [lp, eh, ep] =>
      .ok (lp, [("name", JVal.str tunnel_name), ("listen_port", JVal.str lp),
                ("endpoint_host", JVal.str eh), ("endpoint_port", JVal.str ep)])
    | _ => .error (.arity "-L")
  else if kind = "-R" then
    match params with
    | [lh, lp, eh, ep] =>
      .ok (lh, [("name", JVal.str tunnel_name), ("listen_host", JVal.str lh),
                ("listen_port", JVal.str lp), ("endpoint_host", JVal.str eh),
                ("endpoint_port", JVal.str ep)])
    | _ => .error (.arity "-R")
  else if kind = "-D" then
    match params with
    | [lp] => .ok (lp, [("name", JVal.str tunnel_name), ("listen_port", JVal.str lp)])
    | _ => .error (.arity "-D")
  else .error .unknownKind

/-- Lines 198-200: create the kind bucket if absent, then store the new
spec at key `params[0]`, overwriting any spec already there. -/
def add_tunnel (tns : Tunnels) (tunnel_name kind : String)
    (params : List String) : Except AddErr Tunnels :=
  match mk_tunnel tunnel_name kind params with
  | .error e => .error e
  | .ok (key, nt) =>
    let bucket := (dlookup tns kind).getD []
    .ok (dinsert tns kind (dinsert bucket key nt))

/-- Line 218's match test: `tunnel["name"] == tunnel_name`.  The specs the
claims range over all carry a `name` field (the script's own `validate` and
`add` guarantee it), so the `Option` lookup never papers over a `KeyError`. -/
def matchesName (tunnel_name : String) (t : Tunnel) : Bool :=
  dlookup t "name" == some (JVal.str tunnel_name)

/-- Lines 216-220: delete, in every kind bucket, every spec whose `name`
equals `tunnel_name`.  The Python loop iterates a snapshot
(`list(tunnels.items())`) and deletes matched keys from the bucket; since
bucket keys are unique this is the per-bucket filter below. -/
def remove_specs (tunnel_name : String) (tns : Tunnels) : Tunnels :=
  tns.map (fun kb => (kb.1, kb.2.filter (fun pt => !(matchesName tunnel_name pt.2))))

/-- Number of specs across all buckets whose `name` matches. -/
def countMatching (tunnel_name : String) (tns : Tunnels) : Nat :=
  (tns.map (fun kb => kb.2.countP (fun pt => matchesName tunnel_name pt.2))).sum

/-- Total number of specs across all buckets. -/
def totalSpecs (tns : Tunnels) : Nat := (tns.map (fun kb => kb.2.length)).sum

/-- `remove_tunnel` (lines 206-227): the stored tunnels afterwards and the
`found` flag.  When nothing matched the file is not rewritten (line 227 only
logs). -/
def remove_tunnel (tunnel_name : String) (tns : Tunnels) : Tunnels × Bool :=
  let found := 0 < countMatching tunnel_name tns
  if found then (remove_specs tunnel_name tns, true) else (tns, false)

/-! ## `is_host_reachable` (lines 266-278)

The spawned `ping -c 3 -W 1 -i 0.01 ip` run under `subprocess.run(...,
timeout=1)` has three observable outcomes, abstracted below.  Latencies are
the measured elapsed milliseconds, modelled as `Nat`. -/

inductive PingOutcome where
  | completed : Int → Nat → PingOutcome
  | timedOut : PingOutcome
  | spawnError : PingOutcome
deriving DecidableEq

/-- `is_host_reachable` (lines 266-278): when `subprocess.run` returns
within the timeout, the elapsed time is returned *without consulting the
exit code* (the `returncode == 0` test is commented out at line 273);
`TimeoutExpired` and any other exception yield `None`. -/
def is_host_reachable : PingOutcome → Option Nat
  | .completed _ elapsed => some elapsed
  | .timedOut => none
  | .spawnError => none

/-! ## The SSH-endpoint probe of `check_status` (lines 297-324, 326-353)

`is_port_open` and `is_host_reachable` are passed as oracles
`tcp : JVal → JVal → Option Nat` (host, port ↦ measured latency or `none`)
and `png : JVal → Option Nat`.  In the Python, the `ping` only runs on the
fallback branch; with a pure oracle that laziness shows up as the result
not depending on `png` when the TCP probe succeeds (proved below). -/

/-- One per-server status record. `icmp_host` is the value under
`icmp.ip` (fleet branch) / `icmp.host` (detail branch). -/
structure ServerStatus where
  name : String
  icmp_host : JVal
  icmp_status : Bool
  icmp_latency_ms : Option Nat
  tcp_port : JVal
  tcp_status : Bool
  tcp_latency_ms : Option Nat
deriving DecidableEq

/-- Fleet branch, lines 303-322: probe the SSH port first; on success reuse
its latency as `ping_ms`, else fall back to `is_host_reachable`. -/
def fleet_server_entry (tcp : JVal → JVal → Option Nat)
    (png : JVal → Option Nat) (name : String) (c : Config) : ServerStatus :=
  let ip := c.ip.getD (JVal.str "")
  let sp := c.ssh_port.getD (JVal.str "")
  let port_latency := tcp ip sp
  match port_latency with
  | some l =>
    ⟨name, ip, (some l).isSome, some l, sp, true, port_latency⟩
  | none =>
    let ping_ms := png ip
    ⟨name, ip, ping_ms.isSome, ping_ms, sp, false, port_latency⟩

/-- Single-group branch, lines 334-351: textually the same probe logic as
the fleet branch (the source duplicates it). -/
def detail_server_entry (tcp : JVal → JVal → Option Nat)
    (png : JVal → Option Nat) (name : String) (c : Config) : ServerStatus :=
  let ip := c.ip.getD (JVal.str "")
  let sp := c.ssh_port.getD (JVal.str "")
  let port_latency := tcp ip sp
  match port_latency with
  | some l =>
    ⟨name, ip, (some l).isSome, some l, sp, true, port_latency⟩
  | none =>
    let ping_ms := png ip
    ⟨name, ip, ping_ms.isSome, ping_ms, sp, false, port_latency⟩

/-- The fleet branch of `check_status` (lines 297-324).  `docs` is the
directory listing of `CONFIG_DIR`: per group the name and the result of
`json.load` (`.error msg` = unparsable document, in which case line 302
raises and the whole report aborts — there is no `try` around the loop
body, so the exception propagates out of `check_status`). -/
def check_status_all (tcp : JVal → JVal → Option Nat)
    (png : JVal → Option Nat) (docs : List (String × Except String Config)) :
    Except String (List ServerStatus) :=
  match docs with
  | [] => .ok []
  | (_, .error e) :: _ => .error e
  | (name, .ok c) :: rest =>
    match check_status_all tcp png rest with
    | .error e => .error e
    | .ok l => .ok (fleet_server_entry tcp png name c :: l)

/-! ## `status_service` (lines 412-424) -/

/-- One entry of the `status` report. -/
structure ProcEntry where
  name : String
  status : String
  pid : Option Nat
deriving DecidableEq

/-- Lines 419-423: probe the recorded pid with signal 0; active entries
carry the pid, inactive ones do not. -/
def status_entry (alive : Nat → Bool) (name : String) (pid : Nat) : ProcEntry :=
  if alive pid then ⟨name, "active", some pid⟩ else ⟨name, "inactive", none⟩

/-- `status_service` (lines 412-424): one entry per marker file in
`PID_DIR`.  The loop only *reads* the marker files — the second component
is the marker set after the call, which is the input set unchanged (no
`os.remove` anywhere in the function). -/
def status_service (alive : Nat → Bool) (markers : List (String × Nat)) :
    List ProcEntry × List (String × Nat) :=
  (markers.map (fun m => status_entry alive m.1 m.2), markers)

/-! ## Spec-side companions

`requiredPresentSpec` and `firstMissing` transcribe the *specification's*
wording of the validation contract ("all required fields per kind are
present", "the first missing field"), to be compared against
`validate_config` above.  Per spec §3, `name` is required of every spec
regardless of kind. -/

/-- The spec's required per-spec fields for a kind: `name` plus the kind's
own fields, in the order the code checks them. -/
def specRequiredFields (kind : String) : List String :=
  "name" :: kindFields kind

/-- Spec wording of acceptance: every required top-level field and, per
kind, every required per-spec sub-field is present. -/
def requiredPresentSpec (c : Config) : Bool :=
  c.user.isSome && c.ip.isSome && c.ssh_port.isSome && c.ssh_key.isSome &&
    match c.tunnels with
    | none => false
    | some tns =>
      tns.all (fun kb => kb.2.all (fun pt =>
        (specRequiredFields kb.1).all (fun f => (dlookup pt.2 f).isSome)))

/-- The first missing required field of one spec, in check order. -/
def specFirstMissing (kind : String) (t : Tunnel) : Option String :=
  (specRequiredFields kind).find? (fun f => (dlookup t f).isNone)

def bucketFirstMissing (kind : String) : List (String × Tunnel) → Option String
  | [] => none
  | (_, t) :: rest =>
    match specFirstMissing kind t with
    | some f => some f
    | none => bucketFirstMissing kind rest

def bucketsFirstMissing : Tunnels → Option String
  | [] => none
  | (kind, b) :: rest =>
    match bucketFirstMissing kind b with
    | some f => some f
    | none => bucketsFirstMissing rest

/-- The first missing required field of a whole config, in the order
`validate_config` scans: top-level fields, then buckets, then specs. -/
def firstMissing (c : Config) : Option String :=
  match topMissing c with
  | some f => some f
  | none => bucketsFirstMissing (c.tunnels.getD [])

/-- Whether a validation result is an error whose text names field `f`. -/
def errNames (r : Except VErr Unit) (f : String) : Bool :=
  match r with
  | .error e => e.names f
  | .ok _ => false

/-- The forward arguments of a command in bucket order then spec insertion
order — the flattened form of the nested loop of lines 116-123. -/
def forward_args_all (tns : Tunnels) : List String :=
  (tns.map (fun kb => (kb.2.map (fun pt => forward_args kb.1 pt.2)).flatten)).flatten

/-- Every spec in every bucket carries a `name` field (true of every config
the script itself writes; `remove_tunnel` would raise a `KeyError`
otherwise, so the remove theorems assume it). -/
def allNamed (tns : Tunnels) : Bool :=
  tns.all (fun kb => kb.2.all (fun pt => (dlookup pt.2 "name").isSome))

/-- The arities `add_tunnel` enforces per kind token. -/
def kindArity (kind : String) : Option Nat :=
  if kind = "-L" then some 3
  else if kind = "-R" then some 4
  else if kind = "-D" then some 1
  else none

/-! ## Concrete documents used by witnesses and counterexamples -/

/-- The `web` spec of the spec's end-to-end scenario:
`{"name":"web","listen_port":8080,"endpoint_host":"127.0.0.1","endpoint_port":80}`. -/
def webSpec : Tunnel :=
  [("name", JVal.str "web"), ("listen_port", JVal.num 8080),
   ("endpoint_host", JVal.str "127.0.0.1"), ("endpoint_port", JVal.num 80)]

def exampleTunnels : Tunnels := [("-L", [("8080", webSpec)])]

/-- The end-to-end scenario config
`{user:"u", ip:"10.0.0.5", ssh_port:22, ssh_key:"/k", tunnels:{"-L":{"8080":webSpec}}}`. -/
def exampleCfg : Config :=
  { user := some (.str "u"), ip := some (.str "10.0.0.5"),
    ssh_port := some (.num 22), ssh_key := some (.str "/k"),
    keepalive_interval := none, bandwidth := none,
    tunnels := some exampleTunnels }

/-- A three-group fleet whose middle config file is unparsable. -/
def fleetDocs : List (String × Except String Config) :=
  [("g1", .ok exampleCfg), ("g2", .error "Expecting value"),
   ("g3", .ok exampleCfg)]

/-! # Dictionary lemmas -/

theorem dlookup_append {α : Type} (m m' : List (String × α)) (k : String) :
    dlookup (m ++ m') k =
      match dlookup m k with
      | some v => some v
      | none => dlookup m' k := by
  induction m with
  | nil => simp [dlookup]
  | cons e rest ih =>
    obtain ⟨k', v⟩ := e
    by_cases h : k' = k <;> simp [dlookup, h, ih]

theorem dlookup_map_replace {α : Type} (m : List (String × α)) (k : String)
    (v : α) :
    dlookup (m.map (fun e => if e.1 = k then (k, v) else e)) k =
      if (dlookup m k).isSome then some v else none := by
  induction m with
  | nil => simp [dlookup]
  | cons e rest ih =>
    obtain ⟨k', v'⟩ := e
    by_cases h : k' = k
    · subst h
      rw [List.map_cons, if_pos rfl]
      simp [dlookup]
    · rw [List.map_cons, if_neg h]
      simp [dlookup, h, ih]

/-- After `m[k] = v`, looking up `k` yields the new value: `dinsert`
overwrites whatever was stored at that key. -/
theorem dlookup_dinsert {α : Type} (m : List (String × α)) (k : String)
    (v : α) : dlookup (dinsert m k v) k = some v := by
  unfold dinsert
  by_cases h : (dlookup m k).isSome
  · simp [h, dlookup_map_replace]
  · rw [Option.not_isSome_iff_eq_none] at h
    simp [h, dlookup_append, dlookup]

theorem dinsert_absent {α : Type} (m : List (String × α)) (k : String)
    (v : α) (h : dlookup m k = none) : dinsert m k v = m ++ [(k, v)] := by
  simp [dinsert, h]

/-! # Command-construction lemmas -/

theorem foldl_append_flatten {α β : Type} (f : β → List α) :
    ∀ (l : List β) (init : List α),
      l.foldl (fun a x => a ++ f x) init = init ++ (l.map f).flatten := by
  intro l
  induction l with
  | nil => intro init; simp
  | cons x xs ih => intro init; simp [List.foldl_cons, ih]

theorem start_cmd_forwards :
    ∀ (tns : Tunnels) (init : List String),
      tns.foldl
        (fun acc kb => kb.2.foldl (fun a pt => a ++ forward_args kb.1 pt.2) acc)
        init = init ++ forward_args_all tns := by
  intro tns
  induction tns with
  | nil => intro init; simp [forward_args_all]
  | cons kb rest ih =>
    intro init
    simp [List.foldl_cons, forward_args_all, ih, foldl_append_flatten,
      List.append_assoc]

/-! # Claims -/

/-- C10: `is_host_reachable` reports the host reachable with the elapsed
time whenever the spawned `ping` completes within the timeout, whatever its
exit status (the `returncode` test is commented out); only a timeout of the
probe process or a spawn failure yields `None`. -/
theorem claim_C10_ping_ignores_exit_status :
    (∀ (code : Int) (elapsed : Nat),
      is_host_reachable (.completed code elapsed) = some elapsed) ∧
    (∀ o : PingOutcome,
      is_host_reachable o = none ↔ o = .timedOut ∨ o = .spawnError) := by
  constructor
  · intro code elapsed; rfl
  · intro o; cases o <;> simp [is_host_reachable]

/-- C1: in both report shapes the SSH endpoint probe tries the TCP connect
first; a TCP success reuses the TCP latency as the reachability latency
with `tcp.status = true` (the result does not depend on the ICMP oracle at
all); a TCP failure reports `tcp.status = false, tcp.latency_ms = null`
and takes the latency estimate from ICMP alone; when ICMP also fails the
entry is `tcp.status=false, tcp.latency_ms=null, icmp.status=false`. -/
theorem claim_C1_ssh_probe_fallback :
    ∀ (tcp : JVal → JVal → Option Nat) (png : JVal → Option Nat)
      (name : String) (c : Config),
      detail_server_entry tcp png name c = fleet_server_entry tcp png name c ∧
      (∀ l, tcp (c.ip.getD (JVal.str "")) (c.ssh_port.getD (JVal.str "")) = some l →
        fleet_server_entry tcp png name c =
          ⟨name, c.ip.getD (JVal.str ""), true, some l,
            c.ssh_port.getD (JVal.str ""), true, some l⟩) ∧
      (tcp (c.ip.getD (JVal.str "")) (c.ssh_port.getD (JVal.str "")) = none →
        fleet_server_entry tcp png name c =
          ⟨name, c.ip.getD (JVal.str ""),
            (png (c.ip.getD (JVal.str ""))).isSome, png (c.ip.getD (JVal.str "")),
            c.ssh_port.getD (JVal.str ""), false, none⟩) ∧
      (tcp (c.ip.getD (JVal.str "")) (c.ssh_port.getD (JVal.str "")) = none →
        png (c.ip.getD (JVal.str "")) = none →
        fleet_server_entry tcp png name c =
          ⟨name, c.ip.getD (JVal.str ""), false, none,
            c.ssh_port.getD (JVal.str ""), false, none⟩) := by
  intro tcp png name c
  refine ⟨rfl, fun l h => ?_, fun h => ?_, fun h hp => ?_⟩
  · simp [fleet_server_entry, h]
  · simp [fleet_server_entry, h]
  · simp [fleet_server_entry, h, hp]

theorem claim_C1_witness :
    fleet_server_entry (fun _ _ => none) (fun _ => none) "g" exampleCfg =
      ⟨"g", JVal.str "10.0.0.5", false, none, JVal.num 22, false, none⟩ :=
  (claim_C1_ssh_probe_fallback (fun _ _ => none) (fun _ => none) "g"
    exampleCfg).2.2.2 rfl rfl

/-- C4: when the recorded pid is alive, `start_tunnel` is a no-op — the
marker is unchanged and nothing is spawned; a child is spawned exactly when
there is no marker or the marker's pid is dead, and the config loads and
validates. -/
theorem claim_C4_start_noop_when_alive :
    ∀ (alive : Nat → Bool) (marker : Option Nat) (cfg : Option Config)
      (newPid : Nat),
      (∀ pid, marker = some pid → alive pid = true →
        start_tunnel alive marker cfg newPid = (marker, .alreadyRunning)) ∧
      ((start_tunnel alive marker cfg newPid).2 = .spawned newPid ↔
        (marker = none ∨ ∃ pid, marker = some pid ∧ alive pid = false) ∧
        ∃ c, cfg = some c ∧ validate_config c = .ok ()) := by
  intro alive marker cfg newPid
  constructor
  · rintro pid rfl h
    simp [start_tunnel, h]
  · have hgo : ∀ mk : Option Nat, (start_go cfg newPid mk).2 = .spawned newPid ↔
        ∃ c, cfg = some c ∧ validate_config c = .ok () := by
      intro mk
      cases cfg with
      | none => simp [start_go]
      | some c =>
        cases hv : validate_config c with
        | error e => simp [start_go, hv]
        | ok u => simp [start_go, hv]
    cases marker with
    | none => simp [start_tunnel, hgo]
    | some pid =>
      by_cases ha : alive pid
      · simp [start_tunnel, ha]
      · simp [start_tunnel, ha, hgo]

theorem claim_C4_witness :
    start_tunnel (fun _ => true) (some 5) (some exampleCfg) 9 =
      (some 5, .alreadyRunning) :=
  (claim_C4_start_noop_when_alive (fun _ => true) (some 5) (some exampleCfg) 9).1
    5 rfl rfl

/-- C9 as stated is false: liveness checks that find a dead process do NOT
delete the stale marker.  `status_service` on a marker whose pid is dead
returns the marker set unchanged (the stale file survives) while reporting
the process inactive, and `start_tunnel` on a stale marker with an
unloadable config leaves the stale marker in place. -/
theorem claim_C9_counterexample :
    (status_service (fun _ => false) [("g", 42)]).2 = [("g", 42)] ∧
    (status_service (fun _ => false) [("g", 42)]).1 =
      [⟨"g", "inactive", none⟩] ∧
    start_tunnel (fun _ => false) (some 42) none 9 = (some 42, .failed) :=
  ⟨rfl, rfl, rfl⟩

/-- C9 amended: liveness checks that find a dead process report it as not
alive without raising, but never delete the stale marker: the process
status report leaves the marker set untouched, and `start_tunnel` keeps a
marker in place (overwriting it with the new pid only when it respawns). -/
theorem claim_C9_amended_stale_marker_kept :
    ∀ (alive : Nat → Bool) (markers : List (String × Nat)) (name : String)
      (pid newPid : Nat) (cfg : Option Config),
      (status_service alive markers).2 = markers ∧
      (alive pid = false → status_entry alive name pid = ⟨name, "inactive", none⟩) ∧
      (alive pid = false → (start_tunnel alive (some pid) cfg newPid).1 ≠ none) := by
  intro alive markers name pid newPid cfg
  refine ⟨rfl, fun h => by simp [status_entry, h], fun h => ?_⟩
  cases cfg with
  | none => simp [start_tunnel, start_go, h]
  | some c =>
    cases hv : validate_config c with
    | error e => simp [start_tunnel, start_go, h, hv]
    | ok u => simp [start_tunnel, start_go, h, hv]

theorem claim_C9_amended_witness :
    ((fun _ => false) : Nat → Bool) 42 = false ∧
    status_entry (fun _ => false) "stale" 42 = ⟨"stale", "inactive", none⟩ :=
  ⟨rfl, (claim_C9_amended_stale_marker_kept (fun _ => false) [] "stale" 42 9
    none).2.1 rfl⟩

/-- C3 as stated is false: the fleet branch of `check_status` has no
exception handling around `json.load`, so one malformed config aborts the
whole report — on a three-group fleet whose middle document is unparsable
the report is the propagated parse error, with no entry for the two
well-formed groups. -/
theorem claim_C3_counterexample :
    check_status_all (fun _ _ => none) (fun _ => none) fleetDocs =
      .error "Expecting value" := rfl

/-- C3 amended: the fleet summary aborts with the first malformed config's
parse error (well-formed groups, before or after it, are not reported);
only when every config parses does it return one entry per group. -/
theorem claim_C3_amended_fleet_aborts_on_malformed :
    ∀ (tcp : JVal → JVal → Option Nat) (png : JVal → Option Nat),
      (∀ (pre : List (String × Config)) (name e : String)
        (rest : List (String × Except String Config)),
        check_status_all tcp png
          (pre.map (fun d => (d.1, Except.ok d.2)) ++ (name, Except.error e) :: rest) =
          .error e) ∧
      (∀ docs : List (String × Config),
        check_status_all tcp png (docs.map (fun d => (d.1, Except.ok d.2))) =
          .ok (docs.map (fun d => fleet_server_entry tcp png d.1 d.2))) := by
  intro tcp png
  constructor
  · intro pre name e rest
    induction pre with
    | nil => rfl
    | cons d ds ih => simp [check_status_all, ih]
  · intro docs
    induction docs with
    | nil => rfl
    | cons d ds ih => simp [check_status_all, ih]

/-- C2: `start_tunnel` builds the child command in the exact order
base-wrapper (`autossh -M 0 -N -i key user@ip -p port`), then the
`ServerAliveInterval` option when `keepalive_interval` is present, then one
forward argument per spec in bucket order and per-bucket insertion order,
with the `trickle` invocation prepended when `bandwidth` is present; on the
end-to-end scenario config, the forward argument is the single string
`-L 8080:127.0.0.1:80`. -/
theorem claim_C2_command_order :
    (∀ c : Config,
      start_cmd c =
        bandwidth_prefix c ++
          (base_cmd c ++ keepalive_args c ++ forward_args_all (c.tunnels.getD []))) ∧
    start_cmd exampleCfg =
      ["autossh", "-M", "0", "-N", "-i", "/k", "u@10.0.0.5", "-p", "22",
       "-L 8080:127.0.0.1:80"] := by
  have hd : ∀ c : Config,
      start_cmd c =
        bandwidth_prefix c ++
          (base_cmd c ++ keepalive_args c ++ forward_args_all (c.tunnels.getD [])) := by
    intro c
    unfold start_cmd
    rw [start_cmd_forwards]
  refine ⟨hd, ?_⟩
  rw [hd]
  rfl

/-! Per-bucket counting lemmas for `remove_tunnel`. -/

theorem filter_not_length_add_countP {α : Type} (p : α → Bool) (l : List α) :
    (l.filter (fun a => !p a)).length + l.countP p = l.length := by
  induction l with
  | nil => rfl
  | cons a l ih =>
    cases hb : p a
    · simp [List.filter_cons, List.countP_cons, hb]
      omega
    · simp [List.filter_cons, List.countP_cons, hb]
      omega

theorem remove_specs_totals (tn : String) (tns : Tunnels) :
    totalSpecs (remove_specs tn tns) + countMatching tn tns = totalSpecs tns := by
  induction tns with
  | nil => rfl
  | cons kb rest ih =>
    simp only [remove_specs, totalSpecs, countMatching, List.map_cons,
      List.sum_cons] at ih ⊢
    have hb := filter_not_length_add_countP
      (fun pt => matchesName tn pt.2) kb.2
    omega

theorem remove_specs_clean (tn : String) (tns : Tunnels) :
    countMatching tn (remove_specs tn tns) = 0 := by
  induction tns with
  | nil => rfl
  | cons kb rest ih =>
    simp only [remove_specs, countMatching, List.map_cons, List.sum_cons] at ih ⊢
    have : (kb.2.filter (fun pt => !(matchesName tn pt.2))).countP
        (fun pt => matchesName tn pt.2) = 0 := by
      rw [List.countP_eq_zero]
      intro a ha
      have := List.of_mem_filter ha
      simpa using this
    omega

theorem remove_specs_of_no_match (tn : String) (tns : Tunnels)
    (h : countMatching tn tns = 0) : remove_specs tn tns = tns := by
  induction tns with
  | nil => rfl
  | cons kb rest ih =>
    simp only [countMatching, List.map_cons, List.sum_cons] at h
    have h1 : kb.2.countP (fun pt => matchesName tn pt.2) = 0 := by omega
    have h2 : countMatching tn rest = 0 := by
      simp only [countMatching]; omega
    simp only [remove_specs, List.map_cons]
    rw [List.filter_eq_self.mpr]
    · have := ih h2
      simp only [remove_specs] at this
      simp [this]
    · intro a ha
      rw [List.countP_eq_zero] at h1
      simpa using h1 a ha

/-- C6: `remove_tunnel` deletes exactly the specs whose `name` equals the
given tunnel name, across all kind buckets: the removed entries number
exactly the matching ones, no spec with that name survives, and when
nothing matches the stored config is returned unchanged with `found =
false` (the no-op is only logged, nothing is raised). -/
theorem claim_C6_remove_by_name_bulk :
    ∀ (tn : String) (tns : Tunnels), allNamed tns = true →
      totalSpecs (remove_tunnel tn tns).1 + countMatching tn tns = totalSpecs tns ∧
      countMatching tn (remove_tunnel tn tns).1 = 0 ∧
      (countMatching tn tns = 0 → remove_tunnel tn tns = (tns, false)) := by
  intro tn tns _
  unfold remove_tunnel
  by_cases h : 0 < countMatching tn tns
  · rw [if_pos h]
    exact ⟨remove_specs_totals tn tns, remove_specs_clean tn tns,
      fun hz => absurd hz (by omega)⟩
  · have hz : countMatching tn tns = 0 := by omega
    rw [if_neg h]
    refine ⟨?_, hz, fun _ => rfl⟩
    rw [hz]
    rfl

/-- C8: `add_tunnel` raises the per-kind usage error exactly when the
positional parameter count differs from the kind's arity (`-L`: 3, `-R`:
4, `-D`: 1), raises the invalid-type error for any kind token outside
those three, and otherwise stores the constructed spec in the kind's
bucket keyed by the first parameter value, overwriting any existing spec
at that key. -/
theorem claim_C8_add_tunnel_contract :
    ∀ (tns : Tunnels) (tn kind : String) (ps : List String),
      (kindArity kind = none → add_tunnel tns tn kind ps = .error .unknownKind) ∧
      (∀ n, kindArity kind = some n →
        (add_tunnel tns tn kind ps = .error (.arity kind) ↔ ps.length ≠ n)) ∧
      (∀ key spec, mk_tunnel tn kind ps = .ok (key, spec) →
        ps.head? = some key ∧
        add_tunnel tns tn kind ps =
          .ok (dinsert tns kind (dinsert ((dlookup tns kind).getD []) key spec)) ∧
        dlookup (dinsert ((dlookup tns kind).getD []) key spec) key = some spec) := by
  intro tns tn kind ps
  by_cases hL : kind = "-L"
  · subst hL
    refine ⟨fun h => by simp [kindArity] at h, fun n hn => ?_, fun key spec hmk => ?_⟩
    · simp [kindArity] at hn
      subst hn
      rcases ps with _ | ⟨a, _ | ⟨b, _ | ⟨c, _ | ⟨d, e⟩⟩⟩⟩ <;>
        simp [add_tunnel, mk_tunnel]
    · rcases ps with _ | ⟨a, _ | ⟨b, _ | ⟨c, _ | ⟨d, e⟩⟩⟩⟩ <;>
        simp [mk_tunnel] at hmk
      obtain ⟨hk, hs⟩ := hmk
      subst hk
      subst hs
      exact ⟨rfl, by simp [add_tunnel, mk_tunnel], dlookup_dinsert _ _ _⟩
  · by_cases hR : kind = "-R"
    · subst hR
      refine ⟨fun h => by simp [kindArity] at h, fun n hn => ?_,
        fun key spec hmk => ?_⟩
      · simp [kindArity] at hn
        subst hn
        rcases ps with _ | ⟨a, _ | ⟨b, _ | ⟨c, _ | ⟨d, _ | ⟨f, g⟩⟩⟩⟩⟩ <;>
          simp [add_tunnel, mk_tunnel]
      · rcases ps with _ | ⟨a, _ | ⟨b, _ | ⟨c, _ | ⟨d, _ | ⟨f, g⟩⟩⟩⟩⟩ <;>
          simp [mk_tunnel] at hmk
        obtain ⟨hk, hs⟩ := hmk
        subst hk
        subst hs
        exact ⟨rfl, by simp [add_tunnel, mk_tunnel], dlookup_dinsert _ _ _⟩
    · by_cases hD : kind = "-D"
      · subst hD
        refine ⟨fun h => by simp [kindArity] at h, fun n hn => ?_,
          fun key spec hmk => ?_⟩
        · simp [kindArity] at hn
          subst hn
          rcases ps with _ | ⟨a, _ | ⟨b, e⟩⟩ <;>
            simp [add_tunnel, mk_tunnel]
        · rcases ps with _ | ⟨a, _ | ⟨b, e⟩⟩ <;> simp [mk_tunnel] at hmk
          obtain ⟨hk, hs⟩ := hmk
          subst hk
          subst hs
          exact ⟨rfl, by simp [add_tunnel, mk_tunnel], dlookup_dinsert _ _ _⟩
      · refine ⟨fun _ => by simp [add_tunnel, mk_tunnel, hL, hR, hD],
          fun n hn => by simp [kindArity, hL, hR, hD] at hn,
          fun key spec hmk => by simp [mk_tunnel, hL, hR, hD] at hmk⟩

/-! Round-trip lemmas for C7. -/

theorem map_id_of_mem {α : Type} (f : α → α) :
    ∀ l : List α, (∀ e ∈ l, f e = e) → l.map f = l := by
  intro l h
  induction l with
  | nil => rfl
  | cons a t ih =>
    rw [List.map_cons, h a (List.mem_cons_self a t),
      ih (fun e he => h e (List.mem_cons_of_mem a he))]

theorem dinsert_head {α : Type} (k0 : String) (b0 : α)
    (rest : List (String × α)) (v : α) (hnot : ∀ e ∈ rest, e.1 ≠ k0) :
    dinsert ((k0, b0) :: rest) k0 v = (k0, v) :: rest := by
  unfold dinsert
  rw [if_pos (by simp [dlookup])]
  rw [List.map_cons, if_pos rfl]
  congr 1
  exact map_id_of_mem _ rest (fun e he => by rw [if_neg (hnot e he)])

theorem dinsert_skip {α : Type} (k0 kind : String) (b0 : α)
    (rest : List (String × α)) (v : α) (hne : k0 ≠ kind)
    (hsome : (dlookup rest kind).isSome = true) :
    dinsert ((k0, b0) :: rest) kind v = (k0, b0) :: dinsert rest kind v := by
  unfold dinsert
  have h1 : dlookup ((k0, b0) :: rest) kind = dlookup rest kind := by
    simp [dlookup, hne]
  rw [h1, if_pos hsome, if_pos hsome, List.map_cons, if_neg hne]

theorem filter_not_eq_self_of_countP_zero {α : Type} (p : α → Bool)
    (l : List α) (h : l.countP p = 0) : l.filter (fun a => !p a) = l := by
  rw [List.filter_eq_self]
  intro a ha
  have hpa := List.countP_eq_zero.mp h a ha
  simp only [Bool.not_eq_true] at hpa ⊢
  simp [hpa]

/-- Every spec `mk_tunnel` builds carries the given tunnel name. -/
theorem mk_tunnel_name (tn kind : String) (ps : List String) (key : String)
    (spec : Tunnel) (h : mk_tunnel tn kind ps = .ok (key, spec)) :
    matchesName tn spec = true := by
  by_cases hL : kind = "-L"
  · subst hL
    rcases ps with _ | ⟨a, _ | ⟨b, _ | ⟨c, _ | ⟨d, e⟩⟩⟩⟩ <;> simp [mk_tunnel] at h
    obtain ⟨-, hs⟩ := h
    subst hs
    simp [matchesName, dlookup]
  · by_cases hR : kind = "-R"
    · subst hR
      rcases ps with _ | ⟨a, _ | ⟨b, _ | ⟨c, _ | ⟨d, _ | ⟨f, g⟩⟩⟩⟩⟩ <;>
        simp [mk_tunnel] at h
      obtain ⟨-, hs⟩ := h
      subst hs
      simp [matchesName, dlookup]
    · by_cases hD : kind = "-D"
      · subst hD
        rcases ps with _ | ⟨a, _ | ⟨b, e⟩⟩ <;> simp [mk_tunnel] at h
        obtain ⟨-, hs⟩ := h
        subst hs
        simp [matchesName, dlookup]
      · simp [mk_tunnel, hL, hR, hD] at h

theorem roundtrip_core (tn kind : String) (spec : Tunnel) (key : String)
    (hspec : matchesName tn spec = true) :
    ∀ (tns : Tunnels) (b : List (String × Tunnel)),
      (tns.map Prod.fst).Nodup →
      countMatching tn tns = 0 →
      dlookup tns kind = some b →
      dlookup b key = none →
      remove_specs tn (dinsert tns kind (dinsert b key spec)) = tns ∧
      0 < countMatching tn (dinsert tns kind (dinsert b key spec)) := by
  intro tns
  induction tns with
  | nil => intro b _ _ hlk _; simp [dlookup] at hlk
  | cons e rest ih =>
    obtain ⟨k0, b0⟩ := e
    intro b hnd hcnt hlk hbk
    rw [List.map_cons, List.nodup_cons] at hnd
    obtain ⟨hk0nin, hndrest⟩ := hnd
    have hcnt0 : b0.countP (fun pt => matchesName tn pt.2) = 0 := by
      simp only [countMatching, List.map_cons, List.sum_cons] at hcnt
      omega
    have hcntrest : countMatching tn rest = 0 := by
      simp only [countMatching, List.map_cons, List.sum_cons] at hcnt
      simp only [countMatching]
      omega
    by_cases hk : k0 = kind
    · subst hk
      have hb : b0 = b := by
        simpa [dlookup] using hlk
      subst hb
      have hnot : ∀ e ∈ rest, e.1 ≠ k0 := by
        intro e he heq
        have hmem : e.1 ∈ rest.map Prod.fst := List.mem_map_of_mem Prod.fst he
        rw [heq] at hmem
        exact hk0nin hmem
      rw [dinsert_head k0 b0 rest _ hnot, dinsert_absent b0 key spec hbk]
      constructor
      · simp only [remove_specs, List.map_cons]
        rw [List.filter_append,
          filter_not_eq_self_of_countP_zero _ _ hcnt0]
        have hrest : rest.map
            (fun kb => (kb.1, kb.2.filter (fun pt => !(matchesName tn pt.2)))) =
            rest := by
          have := remove_specs_of_no_match tn rest hcntrest
          simpa [remove_specs] using this
        rw [hrest]
        simp [List.filter_cons, hspec]
      · simp only [countMatching, List.map_cons, List.sum_cons,
          List.countP_append]
        have : List.countP (fun pt => matchesName tn pt.2) [(key, spec)] = 1 := by
          simp [List.countP_cons, hspec]
        omega
    · have hlk' : dlookup rest kind = some b := by
        simp only [dlookup, if_neg hk] at hlk
        exact hlk
      rw [dinsert_skip k0 kind b0 rest _ hk (by rw [hlk']; rfl)]
      obtain ⟨ih1, ih2⟩ := ih b hndrest hcntrest hlk' hbk
      constructor
      · simp only [remove_specs, List.map_cons]
        rw [filter_not_eq_self_of_countP_zero _ _ hcnt0]
        simp only [remove_specs] at ih1
        rw [ih1]
      · simp only [countMatching, List.map_cons, List.sum_cons]
        simp only [countMatching] at ih2
        omega

/-- C7 as stated is false: `"new"` is a name no spec of the example config
carries, yet `addTunnel` of a `"new"` spec at listen port 8080 — a key
already occupied by the `web` spec — overwrites `web`, and the following
`removeTunnel "new"` leaves an emptied bucket, not the prior state. -/
theorem claim_C7_counterexample :
    countMatching "new" exampleTunnels = 0 ∧
    add_tunnel exampleTunnels "new" "-L" ["8080", "h", "80"] =
      .ok [("-L", [("8080",
        [("name", JVal.str "new"), ("listen_port", JVal.str "8080"),
         ("endpoint_host", JVal.str "h"), ("endpoint_port", JVal.str "80")])])] ∧
    (remove_tunnel "new" [("-L", [("8080",
        [("name", JVal.str "new"), ("listen_port", JVal.str "8080"),
         ("endpoint_host", JVal.str "h"), ("endpoint_port", JVal.str "80")])])]).1 =
      [("-L", [])] ∧
    ([("-L", [])] : Tunnels) ≠ exampleTunnels := by
  refine ⟨rfl, rfl, rfl, by decide⟩

/-- C7 amended: the add-then-remove round trip restores the tunnel buckets
exactly to their prior state provided that — besides the tunnel name being
carried by no existing spec — the kind's bucket already exists and no spec
occupies the new spec's port key (`params[0]`); otherwise the spec stored
at that key is overwritten and lost, or the newly created empty bucket
survives the removal. -/
theorem claim_C7_add_remove_roundtrip :
    ∀ (tns : Tunnels) (tn kind : String) (ps : List String)
      (b : List (String × Tunnel)) (key : String) (spec : Tunnel)
      (tns' : Tunnels),
      (tns.map Prod.fst).Nodup →
      countMatching tn tns = 0 →
      dlookup tns kind = some b →
      mk_tunnel tn kind ps = .ok (key, spec) →
      dlookup b key = none →
      add_tunnel tns tn kind ps = .ok tns' →
      remove_tunnel tn tns' = (tns, true) := by
  intro tns tn kind ps b key spec tns' hnd hcnt hlk hmk hbk hadd
  have htns' : tns' = dinsert tns kind (dinsert b key spec) := by
    unfold add_tunnel at hadd
    rw [hmk] at hadd
    rw [hlk] at hadd
    simpa using hadd.symm
  subst htns'
  obtain ⟨h1, h2⟩ := roundtrip_core tn kind spec key
    (mk_tunnel_name tn kind ps key spec hmk) tns b hnd hcnt hlk hbk
  unfold remove_tunnel
  rw [if_pos h2, h1]

theorem claim_C7_witness :
    add_tunnel [("-L", [("8080", webSpec)]), ("-D", [])] "socks" "-D" ["1080"] =
      .ok [("-L", [("8080", webSpec)]),
           ("-D", [("1080", [("name", JVal.str "socks"),
             ("listen_port", JVal.str "1080")])])] ∧
    remove_tunnel "socks"
      [("-L", [("8080", webSpec)]),
       ("-D", [("1080", [("name", JVal.str "socks"),
         ("listen_port", JVal.str "1080")])])] =
      ([("-L", [("8080", webSpec)]), ("-D", [])], true) := by
  refine ⟨rfl, ?_⟩
  exact claim_C7_add_remove_roundtrip
    [("-L", [("8080", webSpec)]), ("-D", [])] "socks" "-D" ["1080"] [] "1080"
    [("name", JVal.str "socks"), ("listen_port", JVal.str "1080")]
    [("-L", [("8080", webSpec)]),
     ("-D", [("1080", [("name", JVal.str "socks"),
       ("listen_port", JVal.str "1080")])])]
    (by decide) rfl rfl rfl rfl rfl

theorem claim_C8_witness :
    mk_tunnel "tn" "-D" ["1080"] =
      .ok ("1080", [("name", JVal.str "tn"), ("listen_port", JVal.str "1080")]) ∧
    add_tunnel [] "tn" "-D" ["1080"] =
      .ok [("-D", [("1080",
        [("name", JVal.str "tn"), ("listen_port", JVal.str "1080")])])] :=
  ⟨rfl, ((claim_C8_add_tunnel_contract [] "tn" "-D" ["1080"]).2.2 "1080"
    [("name", JVal.str "tn"), ("listen_port", JVal.str "1080")] rfl).2.1⟩

theorem claim_C6_witness :
    allNamed exampleTunnels = true ∧
    totalSpecs (remove_tunnel "web" exampleTunnels).1 +
      countMatching "web" exampleTunnels = totalSpecs exampleTunnels ∧
    countMatching "web" (remove_tunnel "web" exampleTunnels).1 = 0 :=
  ⟨rfl, (claim_C6_remove_by_name_bulk "web" exampleTunnels rfl).1,
    (claim_C6_remove_by_name_bulk "web" exampleTunnels rfl).2.1⟩

/-! Validation lemmas for C5. -/

theorem validate_tunnel_spec (kind : String) (t : Tunnel) :
    (validate_tunnel kind t = .ok () ↔ specFirstMissing kind t = none) ∧
    (∀ f, specFirstMissing kind t = some f →
      errNames (validate_tunnel kind t) f = true) := by
  by_cases hn : (dlookup t "name").isNone = true
  · have hsm : specFirstMissing kind t = some "name" := by
      unfold specFirstMissing specRequiredFields
      exact @List.find?_cons_of_pos String (fun f => (dlookup t f).isNone)
        "name" (kindFields kind) hn
    have hv : validate_tunnel kind t = .error .missingName := by
      unfold validate_tunnel
      rw [if_pos hn]
    rw [hsm, hv]
    refine ⟨by simp, fun f hf => ?_⟩
    injection hf with hf
    subst hf
    simp [errNames, VErr.names]
  · have hsm0 : specFirstMissing kind t =
        (kindFields kind).find? (fun f => (dlookup t f).isNone) := by
      unfold specFirstMissing specRequiredFields
      exact @List.find?_cons_of_neg String (fun f => (dlookup t f).isNone)
        "name" (kindFields kind) hn
    have hall_find_none : ∀ (hall : (kindFields kind).all
        (fun k => (dlookup t k).isSome) = true),
        (kindFields kind).find? (fun f => (dlookup t f).isNone) = none := by
      intro hall
      rw [List.find?_eq_none]
      intro x hx
      have hx' := List.all_eq_true.mp hall x hx
      intro hno
      rw [Option.isNone_iff_eq_none] at hno
      rw [hno] at hx'
      simp at hx'
    have hall_find_some : ∀ (hall : ¬ (kindFields kind).all
        (fun k => (dlookup t k).isSome) = true),
        ∃ f0, (kindFields kind).find? (fun f => (dlookup t f).isNone) = some f0 := by
      intro hall
      have hex : ∃ x, x ∈ kindFields kind ∧ ((dlookup t x).isNone = true) := by
        by_contra hno
        push_neg at hno
        apply hall
        rw [List.all_eq_true]
        intro x hx
        have := hno x hx
        cases hD : dlookup t x with
        | none => exact absurd (by simp [hD]) (hD ▸ this)
        | some v => simp
      have : ((kindFields kind).find? (fun f => (dlookup t f).isNone)).isSome := by
        rw [List.find?_isSome]
        exact hex
      exact Option.isSome_iff_exists.mp this
    by_cases hL : kind = "-L"
    · subst hL
      by_cases hall : (kindFields "-L").all (fun k => (dlookup t k).isSome) = true
      · have hv : validate_tunnel "-L" t = .ok () := by
          unfold validate_tunnel
          rw [if_neg hn, if_neg (by simp [hall]), if_neg (by simp),
            if_neg (by simp)]
        rw [hsm0, hall_find_none hall, hv]
        exact ⟨by simp, fun f hf => by cases hf⟩
      · have hv : validate_tunnel "-L" t =
            .error (.missingKindFields "-L" (kindFields "-L")) := by
          unfold validate_tunnel
          rw [if_neg hn, if_pos ⟨rfl, hall⟩]
        obtain ⟨f0, hf0⟩ := hall_find_some hall
        have hmem := List.mem_of_find?_eq_some hf0
        rw [hsm0, hf0, hv]
        refine ⟨by simp, fun f hf => ?_⟩
        injection hf with hf
        subst hf
        simp only [errNames, VErr.names]
        exact List.elem_eq_true_of_mem hmem
    · by_cases hR : kind = "-R"
      · subst hR
        by_cases hall : (kindFields "-R").all (fun k => (dlookup t k).isSome) = true
        · have hv : validate_tunnel "-R" t = .ok () := by
            unfold validate_tunnel
            rw [if_neg hn, if_neg (by simp), if_neg (by simp [hall]),
              if_neg (by simp)]
          rw [hsm0, hall_find_none hall, hv]
          exact ⟨by simp, fun f hf => by cases hf⟩
        · have hv : validate_tunnel "-R" t =
              .error (.missingKindFields "-R" (kindFields "-R")) := by
            unfold validate_tunnel
            rw [if_neg hn, if_neg (by simp), if_pos ⟨rfl, hall⟩]
          obtain ⟨f0, hf0⟩ := hall_find_some hall
          have hmem := List.mem_of_find?_eq_some hf0
          rw [hsm0, hf0, hv]
          refine ⟨by simp, fun f hf => ?_⟩
          injection hf with hf
          subst hf
          simp only [errNames, VErr.names]
          exact List.elem_eq_true_of_mem hmem
      · by_cases hD : kind = "-D"
        · subst hD
          have hkf : kindFields "-D" = ["listen_port"] := rfl
          by_cases hall : (kindFields "-D").all (fun k => (dlookup t k).isSome) = true
          · have hlp : (dlookup t "listen_port").isSome = true := by
              rw [hkf] at hall
              simpa using hall
            have hv : validate_tunnel "-D" t = .ok () := by
              unfold validate_tunnel
              rw [if_neg hn, if_neg (by simp), if_neg (by simp), if_neg ?_]
              intro hc
              have hc2 := hc.2
              rw [Option.isNone_iff_eq_none] at hc2
              rw [hc2] at hlp
              simp at hlp
            rw [hsm0, hall_find_none hall, hv]
            exact ⟨by simp, fun f hf => by cases hf⟩
          · have hlp : (dlookup t "listen_port").isNone = true := by
              rw [hkf] at hall
              cases hE : dlookup t "listen_port" with
              | none => rfl
              | some v => exact absurd (by simp [hE]) hall
            have hv : validate_tunnel "-D" t =
                .error (.missingKindFields "-D" (kindFields "-D")) := by
              unfold validate_tunnel
              rw [if_neg hn, if_neg (by simp), if_neg (by simp),
                if_pos ⟨rfl, hlp⟩]
            obtain ⟨f0, hf0⟩ := hall_find_some hall
            have hmem := List.mem_of_find?_eq_some hf0
            rw [hsm0, hf0, hv]
            refine ⟨by simp, fun f hf => ?_⟩
            injection hf with hf
            subst hf
            simp only [errNames, VErr.names]
            exact List.elem_eq_true_of_mem hmem
        · have hv : validate_tunnel kind t = .ok () := by
            unfold validate_tunnel
            rw [if_neg hn, if_neg (by simp [hL]), if_neg (by simp [hR]),
              if_neg (by simp [hD])]
          have hfe : kindFields kind = [] := by
            unfold kindFields
            rw [if_neg hL, if_neg hR, if_neg hD]
          rw [hsm0, hfe, hv]
          exact ⟨by simp [List.find?], fun f hf => by simp [List.find?] at hf⟩

theorem validate_bucket_spec (kind : String) :
    ∀ b : List (String × Tunnel),
      (validate_bucket kind b = .ok () ↔ bucketFirstMissing kind b = none) ∧
      (∀ f, bucketFirstMissing kind b = some f →
        errNames (validate_bucket kind b) f = true) := by
  intro b
  induction b with
  | nil => exact ⟨by simp [validate_bucket, bucketFirstMissing], fun f hf => by
      simp [bucketFirstMissing] at hf⟩
  | cons e rest ih =>
    obtain ⟨p0, t⟩ := e
    obtain ⟨iff1, nm1⟩ := validate_tunnel_spec kind t
    cases hv : validate_tunnel kind t with
    | error err =>
      have hne : specFirstMissing kind t ≠ none := by
        intro hz
        have := iff1.mpr hz
        rw [hv] at this
        cases this
      obtain ⟨f0, hf0⟩ := Option.ne_none_iff_exists'.mp hne
      refine ⟨?_, fun f hf => ?_⟩
      · simp [validate_bucket, hv, bucketFirstMissing, hf0]
      · simp only [bucketFirstMissing, hf0] at hf
        injection hf with hf
        subst hf
        have hnm := nm1 f0 hf0
        rw [hv] at hnm
        simpa [validate_bucket, hv] using hnm
    | ok u =>
      have hz : specFirstMissing kind t = none := by
        apply iff1.mp
        rw [hv]
      refine ⟨?_, fun f hf => ?_⟩
      · simp [validate_bucket, hv, bucketFirstMissing, hz, ih.1]
      · simp only [bucketFirstMissing, hz] at hf
        have := ih.2 f hf
        simpa [validate_bucket, hv] using this

theorem validate_buckets_spec :
    ∀ tns : Tunnels,
      (validate_buckets tns = .ok () ↔ bucketsFirstMissing tns = none) ∧
      (∀ f, bucketsFirstMissing tns = some f →
        errNames (validate_buckets tns) f = true) := by
  intro tns
  induction tns with
  | nil => exact ⟨by simp [validate_buckets, bucketsFirstMissing], fun f hf => by
      simp [bucketsFirstMissing] at hf⟩
  | cons e rest ih =>
    obtain ⟨kind, b⟩ := e
    obtain ⟨iff1, nm1⟩ := validate_bucket_spec kind b
    cases hv : validate_bucket kind b with
    | error err =>
      have hne : bucketFirstMissing kind b ≠ none := by
        intro hz
        have := iff1.mpr hz
        rw [hv] at this
        cases this
      obtain ⟨f0, hf0⟩ := Option.ne_none_iff_exists'.mp hne
      refine ⟨?_, fun f hf => ?_⟩
      · simp [validate_buckets, hv, bucketsFirstMissing, hf0]
      · simp only [bucketsFirstMissing, hf0] at hf
        injection hf with hf
        subst hf
        have hnm := nm1 f0 hf0
        rw [hv] at hnm
        simpa [validate_buckets, hv] using hnm
    | ok u =>
      have hz : bucketFirstMissing kind b = none := by
        apply iff1.mp
        rw [hv]
      refine ⟨?_, fun f hf => ?_⟩
      · simp [validate_buckets, hv, bucketsFirstMissing, hz, ih.1]
      · simp only [bucketsFirstMissing, hz] at hf
        have := ih.2 f hf
        simpa [validate_buckets, hv] using this

theorem specFirstMissing_none_iff (kind : String) (t : Tunnel) :
    specFirstMissing kind t = none ↔
      (specRequiredFields kind).all (fun f => (dlookup t f).isSome) = true := by
  unfold specFirstMissing
  rw [List.find?_eq_none, List.all_eq_true]
  constructor
  · intro h x hx
    have hx' := h x hx
    cases hE : dlookup t x with
    | none => rw [hE] at hx'; simp at hx'
    | some v => simp [hE]
  · intro h x hx hno
    have hx' := h x hx
    have hno' : (dlookup t x).isNone = true := hno
    rw [Option.isNone_iff_eq_none] at hno'
    rw [hno'] at hx'
    simp at hx'

theorem bucketFirstMissing_none_iff (kind : String) :
    ∀ b : List (String × Tunnel),
      bucketFirstMissing kind b = none ↔
        b.all (fun pt => (specRequiredFields kind).all
          (fun f => (dlookup pt.2 f).isSome)) = true := by
  intro b
  induction b with
  | nil => simp [bucketFirstMissing]
  | cons e rest ih =>
    obtain ⟨p0, t⟩ := e
    cases hsf : specFirstMissing kind t with
    | some f0 =>
      simp only [bucketFirstMissing, hsf]
      constructor
      · intro h; cases h
      · intro h
        rw [List.all_cons, Bool.and_eq_true] at h
        have := (specFirstMissing_none_iff kind t).mpr h.1
        rw [hsf] at this
        cases this
    | none =>
      simp only [bucketFirstMissing, hsf]
      rw [ih, List.all_cons]
      have h1 := (specFirstMissing_none_iff kind t).mp hsf
      simp [h1]

theorem bucketsFirstMissing_none_iff :
    ∀ tns : Tunnels,
      bucketsFirstMissing tns = none ↔
        tns.all (fun kb => kb.2.all (fun pt =>
          (specRequiredFields kb.1).all (fun f => (dlookup pt.2 f).isSome))) = true := by
  intro tns
  induction tns with
  | nil => simp [bucketsFirstMissing]
  | cons e rest ih =>
    obtain ⟨kind, b⟩ := e
    cases hbf : bucketFirstMissing kind b with
    | some f0 =>
      simp only [bucketsFirstMissing, hbf]
      constructor
      · intro h; cases h
      · intro h
        rw [List.all_cons, Bool.and_eq_true] at h
        have := (bucketFirstMissing_none_iff kind b).mpr h.1
        rw [hbf] at this
        cases this
    | none =>
      simp only [bucketsFirstMissing, hbf]
      rw [ih, List.all_cons]
      have h1 := (bucketFirstMissing_none_iff kind b).mp hbf
      simp [h1]

theorem requiredPresent_iff (c : Config) :
    requiredPresentSpec c = true ↔
      (topMissing c = none ∧ bucketsFirstMissing (c.tunnels.getD []) = none) := by
  obtain ⟨u, i, p, k, ka, bw, tn⟩ := c
  cases u <;> cases i <;> cases p <;> cases k <;> cases tn <;>
    simp [requiredPresentSpec, topMissing, bucketsFirstMissing_none_iff]

/-- C5: `validate_config` accepts exactly when every required top-level
field and, per tunnel kind, every required per-spec sub-field (`name` plus
the kind's fields) is present; on any config with a missing required field
it rejects with an error whose text names the first missing field in check
order (for a missing kind sub-field, the per-kind message lists the kind's
required fields, which include that first missing one). -/
theorem claim_C5_validate_iff_required_fields :
    ∀ c : Config,
      (validate_config c = .ok () ↔ requiredPresentSpec c = true) ∧
      (∀ f, firstMissing c = some f → errNames (validate_config c) f = true) := by
  intro c
  cases ht : topMissing c with
  | some f0 =>
    refine ⟨⟨fun hok => ?_, fun hreq => ?_⟩, fun f hf => ?_⟩
    · simp only [validate_config, ht] at hok
      exact Except.noConfusion hok
    · have hp := (requiredPresent_iff c).mp hreq
      rw [ht] at hp
      exact Option.noConfusion hp.1
    · simp only [firstMissing, ht] at hf
      injection hf with hf
      subst hf
      simp [validate_config, ht, errNames, VErr.names]
  | none =>
    obtain ⟨iffb, nmb⟩ := validate_buckets_spec (c.tunnels.getD [])
    refine ⟨?_, fun f hf => ?_⟩
    · rw [requiredPresent_iff]
      simp only [validate_config, ht]
      rw [iffb]
      simp [ht]
    · simp only [firstMissing, ht] at hf
      simp only [validate_config, ht]
      exact nmb f hf

theorem claim_C5_witness :
    firstMissing ⟨some (.str "u"), some (.str "i"), none, some (.str "/k"),
      none, none, some []⟩ = some "ssh_port" ∧
    errNames (validate_config ⟨some (.str "u"), some (.str "i"), none,
      some (.str "/k"), none, none, some []⟩) "ssh_port" = true :=
  ⟨rfl, (claim_C5_validate_iff_required_fields ⟨some (.str "u"),
    some (.str "i"), none, some (.str "/k"), none, none, some []⟩).2
    "ssh_port" rfl⟩
